import Mathlib

/-!
Shallow embedding of the banquet-hall management backend
(`backend/server.py`) for checking its natural-language specification.

The document store (MongoDB via motor) is modelled as in-memory lists:
each collection is a `List` of records or of documents
(`Doc = List (String × Value)`), `find` is `List.filter`, `find_one` is
`List.find?`, `insert_one` appends, `update_one` with `$set` of a full
model dump replaces the first matching document, `delete_one` erases the
first matching document, and `to_list n` is `List.take n`.

External collaborators (PyJWT, bcrypt via passlib, base64, `datetime`)
are modelled by explicit executable stand-ins, noted at each definition.
Datetimes are instants in seconds since the epoch (`Nat`); the
`Value.dtText t` constructor is the ISO-8601 textual serialization
produced by `isoformat()` for the instant `t`, kept tagged so that
`fromisoformat` is its exact inverse, as it is on such strings in Python.
-/

namespace Banquet

/-- A stored field value.  `dt` is a structured datetime instant,
`dtText` the ISO-8601 textual serialization of the same instant.
Free-form attribute maps (`List[dict]` fields of `Package` and `Bill`)
are modelled as string-keyed scalar maps. -/
inductive Value where
  | str (s : String)
  | int (n : Int)
  | bool (b : Bool)
  | dt (t : Nat)
  | dtText (t : Nat)
  | dicts (l : List (List (String × String)))
  | flatDoc (d : List (String × String))
  | null
  deriving DecidableEq, Repr

/-- A stored document: an ordered field-name/value map, mirroring a
pydantic `model_dump()` fed to the document store. -/
abbrev Doc := List (String × Value)

/-- Mongo projection `{k: 0 for k in keys}`: drop the named fields. -/
def projectOut (keys : List String) (d : Doc) : Doc :=
  d.filter (fun kv => !(keys.contains kv.1))

/-- Pydantic response-model validation: keep exactly the declared
fields, in declaration order (extra input fields are ignored). -/
def pickFields (fields : List String) (d : Doc) : Doc :=
  fields.filterMap (fun k => (List.lookup k d).map (fun v => (k, v)))

/-- `doc[k] = f (doc[k])`: rewrite one field in place. -/
def setField (k : String) (f : Value → Value) (d : Doc) : Doc :=
  d.map (fun kv => cond (kv.1 == k) (kv.1, f kv.2) kv)

/-- Python `dict.update({k: v})`: replace the value at an existing key
(keeping its position), else append the new entry. -/
def dictUpdate (d : List (String × Value)) (k : String) (v : Value) :
    List (String × Value) :=
  if d.any (fun kv => kv.1 == k) then
    d.map (fun kv => cond (kv.1 == k) (k, v) kv)
  else d ++ [(k, v)]

/-- `update_one(filter, {"$set": full_dump})`: replace the first
matching element, leave the rest; no-op when nothing matches. -/
def updateFirst (p : α → Bool) (f : α → α) : List α → List α
  | [] => []
  | x :: xs => cond (p x) (f x :: xs) (x :: updateFirst p f xs)

/-- Python truthiness of an `Optional[str]` query parameter:
`None` and `""` are falsy, so they disable the filter. -/
def strTruthy : Option String → Bool
  | none => false
  | some s => !(s == "")

/-! ## Token Service (`create_access_token` / `decode_token`)

PyJWT is modelled by a token that is either structurally malformed or a
payload together with a MAC over payload and secret.  `jwt.decode`
verifies the signature first, then checks the `exp` claim: the token is
expired when `exp <= now` (PyJWT `_validate_exp`), a non-integer `exp`
is a `DecodeError` (a subclass of `InvalidTokenError`). -/

/-- Executable stand-in for the HMAC-SHA256 signature: a deterministic
hash of the secret and the payload encoding. -/
def strCode (s : String) : Nat :=
  s.foldl (fun a c => a * 131 + c.toNat) 7

def valueCode : Value → Nat
  | .str s => strCode s * 8
  | .int n => (n.natAbs * 2 + (if n < 0 then 1 else 0)) * 8 + 1
  | .bool b => (if b then 1 else 0) * 8 + 2
  | .dt t => t * 8 + 3
  | .dtText t => t * 8 + 4
  | .dicts l => (l.foldl (fun a d =>
      d.foldl (fun b kv => b * 1009 + strCode kv.1 + strCode kv.2) a) 5) * 8 + 5
  | .flatDoc d => (d.foldl (fun b kv => b * 1009 + strCode kv.1 + strCode kv.2) 5) * 8 + 6
  | .null => 7

def mac (secret : Nat) (payload : List (String × Value)) : Nat :=
  payload.foldl (fun a kv => (a * 1000003 + strCode kv.1) * 1000003 + valueCode kv.2)
    (secret + 97)

/-- A presented bearer token: either not even structurally a JWT, or a
claims payload with a signature. -/
inductive Token where
  | malformed (raw : String)
  | signed (payload : List (String × Value)) (sig : Nat)
  deriving DecidableEq, Repr

inductive DecodeError where
  | TokenExpired
  | TokenInvalid
  deriving DecidableEq, Repr

/-- `create_access_token(data)` at issue time `now` (seconds):
copy `data`, set `exp = now + 24h`, sign with the secret. -/
def create_access_token (secret : Nat) (data : List (String × Value))
    (now : Nat) : Token :=
  let to_encode := dictUpdate data "exp" (.int ((now : Int) + 86400))
  .signed to_encode (mac secret to_encode)

/-- `decode_token` / `jwt.decode` at check time `now`.  `TokenExpired`
is surfaced by the source as HTTP 401 "Token expired", `TokenInvalid`
as 401 "Invalid token". -/
def decode_token (secret : Nat) (token : Token) (now : Nat) :
    Except DecodeError (List (String × Value)) :=
  match token with
  | .malformed _ => .error .TokenInvalid
  | .signed payload sig =>
    if sig == mac secret payload then
      match List.lookup "exp" payload with
      | some (.int e) =>
        if e ≤ (now : Int) then .error .TokenExpired else .ok payload
      | some _ => .error .TokenInvalid
      | none => .ok payload
    else .error .TokenInvalid

/-! ## Credential store (`hash_password` / `verify_password`)

bcrypt via passlib is an external collaborator; the deterministic
stand-in below keeps the one property the claims use: the stored hash
is the hash of the supplied password. -/

def hash_password (password : String) : String :=
  "bcrypt$" ++ password

def verify_password (plain : String) (hashed : String) : Bool :=
  hash_password plain == hashed

/-! ## Admin repository -/

structure Admin where
  id : String
  username : String
  password_hash : String
  hall_name : String
  created_at : Nat
  deriving DecidableEq, Repr

/-- `Admin.model_dump()`: fields in declaration order. -/
def Admin.model_dump (a : Admin) : Doc :=
  [("id", .str a.id), ("username", .str a.username),
   ("password_hash", .str a.password_hash),
   ("hall_name", .str a.hall_name), ("created_at", .dt a.created_at)]

/-- Declared fields of the `AdminResponse` response model. -/
def adminResponseFields : List String := ["id", "username", "hall_name"]

/-- `GET /admins`: `find({}, {"_id": 0, "password_hash": 0}).to_list(100)`
validated through `response_model=List[AdminResponse]`. -/
def get_admins (admins : List Admin) : List Doc :=
  (((admins.map Admin.model_dump).map
      (projectOut ["_id", "password_hash"])).take 100).map
    (pickFields adminResponseFields)

inductive RepoError where
  | DuplicateUsername
  | SelfDeleteForbidden
  | NotFound
  deriving DecidableEq, Repr

/-- `POST /admins`: reject when the username already exists (HTTP 400
"Username already exists"), else insert a new `Admin` with a fresh
generated id and a hash of the supplied password.  The state component
of the result is the admins collection after the call. -/
def create_admin (admins : List Admin) (username password hn : String)
    (freshId : String) (now : Nat) :
    List Admin × Except RepoError String :=
  match admins.find? (fun a => a.username == username) with
  | some _ => (admins, .error .DuplicateUsername)
  | none =>
    let newAdmin : Admin :=
      ⟨freshId, username, hash_password password, hn, now⟩
    (admins ++ [newAdmin], .ok newAdmin.id)

/-- `DELETE /admins/{admin_id}` acting as the admin with id
`actingId`: self-deletion is rejected (HTTP 400 "Cannot delete your own
account"), else `delete_one({"id": admin_id})`. -/
def delete_admin (admins : List Admin) (actingId admin_id : String) :
    List Admin × Except RepoError String :=
  if admin_id == actingId then (admins, .error .SelfDeleteForbidden)
  else (admins.eraseP (fun a => a.id == admin_id), .ok "Admin deleted successfully")

/-- `find_one({"id": admin_id})` on the admins collection (the lookup
used by the authorization guard; `none` surfaces as `NotFound`). -/
def find_admin (admins : List Admin) (admin_id : String) : Option Admin :=
  admins.find? (fun a => a.id == admin_id)

/-! ## Hall repository -/

structure Hall where
  id : String
  name : String
  name_mr : String
  capacity : Int
  approx_rent : Int
  location : String
  image_url : String
  logo : Option String
  description : Option String
  description_mr : Option String
  deriving DecidableEq, Repr

/-- `GET /halls`: `find({}, {"_id": 0}).to_list(100)` through
`response_model=List[Hall]`; stored hall documents are hall dumps, so
only the `to_list(100)` cap is observable. -/
def get_halls (halls : List Hall) : List Hall :=
  halls.take 100

/-- `PUT /halls/{hall_id}`:
`update_one({"id": hall_id}, {"$set": hall.model_dump()})` — the `$set`
document carries every field of the request body, id included, so the
first stored document whose id equals `hall_id` is replaced wholesale
by the body. -/
def update_hall (halls : List Hall) (hall_id : String) (hall : Hall) :
    List Hall :=
  updateFirst (fun d => d.id == hall_id) (fun _ => hall) halls

/-! ## Service repository -/

structure Service where
  id : String
  hall_id : String
  name : String
  name_mr : String
  price : Option Int
  description : Option String
  description_mr : Option String
  image_url : Option String
  deriving DecidableEq, Repr

/-- `GET /services`: `query = {"hall_id": hall_id} if hall_id else {}`,
`find(query, {"_id": 0}).to_list(1000)`. -/
def get_services (services : List Service) (hall_id : Option String) :
    List Service :=
  (if strTruthy hall_id then
     services.filter (fun s => some s.hall_id == hall_id)
   else services).take 1000

/-- `PUT /services/{service_id}`: same full-dump `$set` as halls. -/
def update_service (services : List Service) (service_id : String)
    (service : Service) : List Service :=
  updateFirst (fun d => d.id == service_id) (fun _ => service) services

/-! ## Package and ShubhDate repositories -/

structure Package where
  id : String
  hall_id : String
  package_type : String
  name : String
  name_mr : String
  items : List (List (String × String))
  rent : Option Int
  custom_charges : List (List (String × String))
  catalogue_url : Option String
  catalogue_image : Option String
  description : Option String
  description_mr : Option String
  custom_fields : Option (List (String × String))
  deriving DecidableEq, Repr

/-- `GET /packages`: optional hall filter, `to_list(1000)`. -/
def get_packages (packages : List Package) (hall_id : Option String) :
    List Package :=
  (if strTruthy hall_id then
     packages.filter (fun p => some p.hall_id == hall_id)
   else packages).take 1000

structure ShubhDate where
  id : String
  date : String
  occasion : String
  occasion_mr : String
  hall_id : String
  deriving DecidableEq, Repr

/-- `GET /shubh-dates`: optional hall filter, `to_list(1000)`. -/
def get_shubh_dates (dates : List ShubhDate) (hall_id : Option String) :
    List ShubhDate :=
  (if strTruthy hall_id then
     dates.filter (fun d => some d.hall_id == hall_id)
   else dates).take 1000

/-! ## Booking repository

The bookings collection is a `List Doc` of the documents exactly as
`create_booking` / `update_booking` write them: the pydantic dump with
`booking_date` overwritten by its `isoformat()` text. -/

structure Booking where
  id : String
  hall_id : String
  date : String
  customer_name : String
  customer_city : String
  customer_phone : String
  event_type : String
  num_guests : Int
  booking_taken_by : Option String
  booking_date : Nat
  status : String
  deriving DecidableEq, Repr

def optStrVal : Option String → Value
  | none => .null
  | some s => .str s

/-- `Booking.model_dump()`: fields in declaration order;
`booking_date` is the structured datetime. -/
def Booking.model_dump (b : Booking) : Doc :=
  [("id", .str b.id), ("hall_id", .str b.hall_id), ("date", .str b.date),
   ("customer_name", .str b.customer_name),
   ("customer_city", .str b.customer_city),
   ("customer_phone", .str b.customer_phone),
   ("event_type", .str b.event_type), ("num_guests", .int b.num_guests),
   ("booking_taken_by", optStrVal b.booking_taken_by),
   ("booking_date", .dt b.booking_date), ("status", .str b.status)]

/-- `datetime.isoformat()` on a structured instant; other values pass
through (the source only applies it to the datetime field). -/
def isoformatVal : Value → Value
  | .dt t => .dtText t
  | v => v

/-- The read-side normalization in `get_bookings` / `get_bills`:
`if isinstance(v, str): v = datetime.fromisoformat(v)` — the textual
serialization is parsed back to the structured instant, anything else
is left as is. -/
def parseIfText : Value → Value
  | .dtText t => .dt t
  | v => v

/-- The document `POST /bookings` and `PUT /bookings/{id}` write:
`doc = booking.model_dump(); doc["booking_date"] = doc["booking_date"].isoformat()`. -/
def bookingInsertDoc (b : Booking) : Doc :=
  setField "booking_date" isoformatVal b.model_dump

/-- `POST /bookings`: insert the serialized doc, return the body. -/
def create_booking (store : List Doc) (b : Booking) :
    List Doc × Booking :=
  (store ++ [bookingInsertDoc b], b)

/-- `PUT /bookings/{booking_id}`: full-dump `$set` (serialized) on the
first document whose id field matches. -/
def update_booking (store : List Doc) (booking_id : String) (b : Booking) :
    List Doc :=
  updateFirst (fun d => List.lookup "id" d == some (Value.str booking_id))
    (fun _ => bookingInsertDoc b) store

/-- `GET /bookings` (protected): optional hall filter, `to_list(1000)`,
then parse each `booking_date` text back to a structured datetime. -/
def get_bookings (store : List Doc) (hall_id : Option String) : List Doc :=
  ((if strTruthy hall_id then
      store.filter (fun d =>
        List.lookup "hall_id" d == (hall_id.map Value.str))
    else store).take 1000).map (setField "booking_date" parseIfText)

/-- `GET /public/bookings`:
`query = {"hall_id": hall_id, "status": "booked"} if hall_id else {"status": "booked"}`,
projection `{"_id": 0, "customer_phone": 0}`, `to_list(1000)`,
returned raw (no response model, no date parsing). -/
def get_public_bookings (store : List Doc) (hall_id : Option String) :
    List Doc :=
  ((if strTruthy hall_id then
      store.filter (fun d =>
        List.lookup "hall_id" d == (hall_id.map Value.str) &&
        List.lookup "status" d == some (Value.str "booked"))
    else store.filter (fun d =>
        List.lookup "status" d == some (Value.str "booked"))).take 1000).map
    (projectOut ["_id", "customer_phone"])

/-! ## Bill repository -/

structure Bill where
  id : String
  booking_id : Option String
  hall_id : String
  hall_name : String
  customer_name : String
  customer_city : String
  booking_date : String
  event_date : String
  num_guests : Int
  event_type : String
  services : List (List (String × String))
  thali_items : List (List (String × String))
  hall_rent : Int
  custom_charges : List (List (String × String))
  discount : Int
  pre_booking_amount : Int
  total_amount : Int
  balance_due : Int
  created_at : Nat
  deriving DecidableEq, Repr

/-- `Bill.model_dump()`: fields in declaration order; `created_at` is
the structured datetime (note `booking_date` is a plain string field on
bills). -/
def Bill.model_dump (b : Bill) : Doc :=
  [("id", .str b.id), ("booking_id", optStrVal b.booking_id),
   ("hall_id", .str b.hall_id), ("hall_name", .str b.hall_name),
   ("customer_name", .str b.customer_name),
   ("customer_city", .str b.customer_city),
   ("booking_date", .str b.booking_date), ("event_date", .str b.event_date),
   ("num_guests", .int b.num_guests), ("event_type", .str b.event_type),
   ("services", .dicts b.services), ("thali_items", .dicts b.thali_items),
   ("hall_rent", .int b.hall_rent),
   ("custom_charges", .dicts b.custom_charges),
   ("discount", .int b.discount),
   ("pre_booking_amount", .int b.pre_booking_amount),
   ("total_amount", .int b.total_amount),
   ("balance_due", .int b.balance_due), ("created_at", .dt b.created_at)]

/-- The document `POST /bills` and `PUT /bills/{id}` write:
`doc = bill.model_dump(); doc["created_at"] = doc["created_at"].isoformat()`. -/
def billInsertDoc (b : Bill) : Doc :=
  setField "created_at" isoformatVal b.model_dump

/-- `GET /bills` (protected): optional hall filter, `to_list(1000)`,
then parse each `created_at` text back to a structured datetime. -/
def get_bills (store : List Doc) (hall_id : Option String) : List Doc :=
  ((if strTruthy hall_id then
      store.filter (fun d =>
        List.lookup "hall_id" d == (hall_id.map Value.str))
    else store).take 1000).map (setField "created_at" parseIfText)

/-! ## Settings repository -/

structure SettingsRec where
  id : String := "settings"
  signup_enabled : Bool := false
  language : String := "en"
  theme : String := "light"
  deriving DecidableEq, Repr

def defaultSettings : SettingsRec := {}

/-- `GET /settings`: `find_one({"id": "settings"})`; when absent,
insert the pydantic defaults and return them in the same call. -/
def get_settings (store : List SettingsRec) :
    List SettingsRec × SettingsRec :=
  match store.find? (fun d => d.id == "settings") with
  | some s => (store, s)
  | none => (store ++ [defaultSettings], defaultSettings)

/-- `PUT /settings`:
`update_one({"id": "settings"}, {"$set": settings.model_dump()}, upsert=True)`.
When a document with id "settings" exists, `$set` replaces all of its
fields (the body's id included).  When none exists, the upsert inserts
the document built from the filter equality and the `$set` fields; if
the body's id differs from "settings" the store rejects the write with
a path-conflict error ("would create a conflict at 'id'"). -/
def update_settings (store : List SettingsRec) (s : SettingsRec) :
    Except String (List SettingsRec) :=
  if (store.find? (fun d => d.id == "settings")).isSome then
    .ok (updateFirst (fun d => d.id == "settings") (fun _ => s) store)
  else if s.id == "settings" then .ok (store ++ [s])
  else .error "upsert path conflict at id"

inductive SettingsOp where
  | get
  | update (s : SettingsRec)
  deriving DecidableEq, Repr

def applySettingsOp (store : List SettingsRec) :
    SettingsOp → Except String (List SettingsRec)
  | .get => .ok (get_settings store).1
  | .update s => update_settings store s

/-- Run a sequence of settings operations from a starting store. -/
def runSettingsOps (store : List SettingsRec) :
    List SettingsOp → Except String (List SettingsRec)
  | [] => .ok store
  | op :: ops =>
    match applySettingsOp store op with
    | .ok st => runSettingsOps st ops
    | .error e => .error e

/-! ## Upload encoder (`upload_image`) -/

/-- Executable stand-in for `base64.b64encode(contents).decode()`. -/
def base64Encode (contents : List Nat) : String :=
  contents.foldl (fun s n => s ++ toString n ++ ";") "b64:"

/-- Python `str.split('.')` on the filename's characters: splits at
every dot; a list with no dot yields a single chunk. -/
def pySplitDot : List Char → List (List Char)
  | [] => [[]]
  | c :: cs =>
    match c == '.', pySplitDot cs with
    | true, r => [] :: r
    | false, [] => [[c]]
    | false, h :: t => (c :: h) :: t

/-- `file.filename.split('.')[-1]`. -/
def file_extension (filename : String) : String :=
  ⟨(pySplitDot filename.data).getLastD []⟩

/-- `POST /upload-image`:
`f"data:image/{file_extension};base64,{base64_image}"`. -/
def upload_image (contents : List Nat) (filename : String) : String :=
  "data:image/" ++ file_extension filename ++ ";base64," ++
    base64Encode contents

/-! ## Helper lemmas -/

theorem lookup_map_replace (d : List (String × Value)) (k : String) (v : Value)
    (h : d.any (fun kv => kv.1 == k) = true) :
    List.lookup k (d.map (fun kv => cond (kv.1 == k) (k, v) kv))
      = some v := by
  induction d with
  | nil => simp at h
  | cons kv d ih =>
    cases hk : (kv.1 == k) with
    | true => simp [List.lookup, hk]
    | false =>
      have hne : (k == kv.1) = false := by
        rw [beq_eq_false_iff_ne] at hk ⊢
        exact fun he => hk he.symm
      have htail : d.any (fun kv => kv.1 == k) = true := by
        simpa [hk] using h
      simp [List.lookup, hk, hne, ih htail]

theorem lookup_append_none (d e : List (String × Value)) (k : String)
    (h : d.any (fun kv => kv.1 == k) = false) :
    List.lookup k (d ++ e) = List.lookup k e := by
  induction d with
  | nil => simp
  | cons kv d ih =>
    have hk : (kv.1 == k) = false := by
      by_contra hc
      simp only [Bool.not_eq_false] at hc
      simp [List.any_cons, hc] at h
    have hne : ¬(k == kv.1) := by
      simp only [beq_iff_eq] at hk ⊢
      exact fun he => by simp [he] at hk
    have htail : d.any (fun kv => kv.1 == k) = false := by
      simpa [hk] using h
    simp [List.lookup, hne, ih htail]

/-- Looking up the key just written by `dictUpdate` yields the new value. -/
theorem lookup_dictUpdate_self (d : List (String × Value)) (k : String)
    (v : Value) : List.lookup k (dictUpdate d k v) = some v := by
  unfold dictUpdate
  by_cases h : d.any (fun kv => kv.1 == k)
  · simp only [h, if_true]
    exact lookup_map_replace d k v h
  · simp only [Bool.not_eq_true] at h
    simp only [h, Bool.false_eq_true, if_false]
    rw [lookup_append_none d _ k h]
    simp [List.lookup]

/-! ## C1: token validation -/

/-- C1.  A token issued by `create_access_token` at time `T` with the
claims map `data` validates at any check time `t ∈ [T, T+24h)` and
yields the embedded claims map (`data` with `exp = T + 24h` set)
unchanged; at any `t ≥ T+24h` validation fails with `TokenExpired`; a
token whose signature does not verify, or that is structurally
malformed, fails with `TokenInvalid`. -/
theorem C1_token_validation (secret : Nat) (data : List (String × Value))
    (T t : Nat) :
    (T ≤ t → t < T + 86400 →
      decode_token secret (create_access_token secret data T) t
        = .ok (dictUpdate data "exp" (.int ((T : Int) + 86400)))) ∧
    (T + 86400 ≤ t →
      decode_token secret (create_access_token secret data T) t
        = .error .TokenExpired) ∧
    (∀ payload sig, sig ≠ mac secret payload →
      decode_token secret (.signed payload sig) t = .error .TokenInvalid) ∧
    (∀ raw, decode_token secret (.malformed raw) t = .error .TokenInvalid) := by
  refine ⟨?_, ?_, ?_, ?_⟩
  · intro _ hlt
    have hexp : ¬(((T : Int) + 86400) ≤ (t : Int)) := by omega
    simp [decode_token, create_access_token,
      lookup_dictUpdate_self, hexp]
  · intro hge
    have hexp : ((T : Int) + 86400) ≤ (t : Int) := by omega
    simp [decode_token, create_access_token,
      lookup_dictUpdate_self, hexp]
  · intro payload sig hsig
    have : (sig == mac secret payload) = false := by
      simpa using hsig
    simp [decode_token, this]
  · intro raw
    simp [decode_token]

theorem C1_token_validation_witness :
    (decode_token 5 (create_access_token 5 [("sub", Value.str "a1")] 1000) 2000
      = .ok (dictUpdate [("sub", Value.str "a1")] "exp"
          (.int ((1000 : Int) + 86400)))) ∧
    (decode_token 5 (create_access_token 5 [("sub", Value.str "a1")] 1000) 90000
      = .error .TokenExpired) ∧
    (decode_token 5
        (.signed [("sub", Value.str "a1")] (mac 5 [("sub", Value.str "a1")] + 1))
        2000 = .error .TokenInvalid) ∧
    (decode_token 5 (.malformed "zzz") 2000 = .error .TokenInvalid) :=
  ⟨(C1_token_validation 5 [("sub", Value.str "a1")] 1000 2000).1
      (by decide) (by decide),
   (C1_token_validation 5 [("sub", Value.str "a1")] 1000 90000).2.1 (by decide),
   (C1_token_validation 5 [("sub", Value.str "a1")] 1000 2000).2.2.1
      [("sub", Value.str "a1")] (mac 5 [("sub", Value.str "a1")] + 1) (by omega),
   (C1_token_validation 5 [("sub", Value.str "a1")] 1000 2000).2.2.2 "zzz"⟩

/-! ## C2: admin listing redaction -/

set_option maxRecDepth 16000 in
/-- The admin listing pipeline on a single record: mongo projection
strips `password_hash`, the response model keeps exactly its three
declared fields. -/
theorem admin_response_eq (a : Admin) :
    pickFields adminResponseFields
      (projectOut ["_id", "password_hash"] a.model_dump)
      = [("id", .str a.id), ("username", .str a.username),
         ("hall_name", .str a.hall_name)] := rfl

/-- C2.  Every record returned by the admin listing has no
`password_hash` field: its fields are exactly `id`, `username`,
`hall_name`. -/
theorem C2_admin_listing_redacts (admins : List Admin) (d : Doc)
    (hd : d ∈ get_admins admins) :
    List.lookup "password_hash" d = none ∧
    d.map Prod.fst = ["id", "username", "hall_name"] := by
  unfold get_admins at hd
  obtain ⟨x, hx, rfl⟩ := List.mem_map.1 hd
  have hx' := List.mem_of_mem_take hx
  obtain ⟨y, hy, rfl⟩ := List.mem_map.1 hx'
  obtain ⟨a, _, rfl⟩ := List.mem_map.1 hy
  rw [admin_response_eq]
  refine ⟨rfl, rfl⟩

theorem C2_admin_listing_redacts_witness :
    List.lookup "password_hash"
      [("id", Value.str "a1"), ("username", Value.str "om_admin"),
       ("hall_name", Value.str "Om Lawns Banquet Hall")] = none ∧
    ([("id", Value.str "a1"), ("username", Value.str "om_admin"),
      ("hall_name", Value.str "Om Lawns Banquet Hall")] : Doc).map Prod.fst
      = ["id", "username", "hall_name"] :=
  C2_admin_listing_redacts
    [⟨"a1", "om_admin", "bcrypt$om123", "Om Lawns Banquet Hall", 0⟩] _
    (List.Mem.head _)

/-! ## C7: admin creation and username uniqueness -/

/-- C7.  Creating an admin whose username matches an existing record
fails with `DuplicateUsername` and leaves the collection unchanged;
with an unused username a new record with the generated fresh id and
the hash of the supplied password is appended. -/
theorem C7_create_admin_unique (admins : List Admin)
    (username password hn freshId : String) (now : Nat) :
    ((∃ a ∈ admins, a.username = username) →
      create_admin admins username password hn freshId now
        = (admins, .error .DuplicateUsername)) ∧
    ((∀ a ∈ admins, a.username ≠ username) →
      create_admin admins username password hn freshId now
        = (admins ++ [⟨freshId, username, hash_password password, hn, now⟩],
           .ok freshId)) := by
  constructor
  · rintro ⟨a, ha, hu⟩
    have hsome : (admins.find? (fun a => a.username == username)).isSome := by
      rw [List.find?_isSome]
      exact ⟨a, ha, by simp [hu]⟩
    obtain ⟨b, hb⟩ := Option.isSome_iff_exists.1 hsome
    unfold create_admin
    rw [hb]
  · intro hall
    have hnone : admins.find? (fun a => a.username == username) = none := by
      rw [List.find?_eq_none]
      intro a ha
      simp [hall a ha]
    unfold create_admin
    rw [hnone]

theorem C7_create_admin_unique_witness :
    (create_admin [⟨"a1", "om_admin", "bcrypt$om123", "Om Lawns Banquet Hall", 0⟩]
        "om_admin" "pw" "H" "a2" 9
      = ([⟨"a1", "om_admin", "bcrypt$om123", "Om Lawns Banquet Hall", 0⟩],
         .error .DuplicateUsername)) ∧
    (create_admin [⟨"a1", "om_admin", "bcrypt$om123", "Om Lawns Banquet Hall", 0⟩]
        "new_admin" "pw" "H" "a2" 9
      = ([⟨"a1", "om_admin", "bcrypt$om123", "Om Lawns Banquet Hall", 0⟩,
          ⟨"a2", "new_admin", hash_password "pw", "H", 9⟩], .ok "a2")) :=
  ⟨(C7_create_admin_unique _ "om_admin" "pw" "H" "a2" 9).1
      ⟨_, List.Mem.head _, rfl⟩,
   (C7_create_admin_unique _ "new_admin" "pw" "H" "a2" 9).2 (by decide)⟩

/-! ## C8: admin deletion -/

/-- After erasing the first element satisfying `p`, no element
satisfying `p` remains, provided at most one did. -/
theorem find?_eraseP_of_countP_le_one (p : α → Bool) (l : List α)
    (h : l.countP p ≤ 1) : (l.eraseP p).find? p = none := by
  induction l with
  | nil => simp
  | cons x l ih =>
    cases hx : p x with
    | true =>
      have h0 : l.countP p = 0 := by
        rw [List.countP_cons, hx, if_pos rfl] at h
        omega
      rw [List.eraseP_cons_of_pos hx, List.find?_eq_none]
      intro a ha hpa
      have := (List.countP_eq_zero.1 h0) a ha
      exact this hpa
    | false =>
      have htail : l.countP p ≤ 1 := by
        rw [List.countP_cons, hx, if_neg (by simp)] at h
        omega
      rw [List.eraseP_cons_of_neg (by simp [hx]), List.find?_cons_of_neg _ (by simp [hx])]
      exact ih htail

/-- C8.  Deleting the acting admin's own id fails with
`SelfDeleteForbidden` and removes nothing; deleting any other id
succeeds, and (as admin ids are unique, each id occurring at most once)
a subsequent lookup of that id finds nothing, i.e. `NotFound`. -/
theorem C8_delete_admin (admins : List Admin) (actingId admin_id : String) :
    (admin_id = actingId →
      delete_admin admins actingId admin_id
        = (admins, .error .SelfDeleteForbidden)) ∧
    (admin_id ≠ actingId →
      (delete_admin admins actingId admin_id).2
          = .ok "Admin deleted successfully" ∧
      (admins.countP (fun a => a.id == admin_id) ≤ 1 →
        find_admin (delete_admin admins actingId admin_id).1 admin_id
          = none)) := by
  constructor
  · intro he
    simp [delete_admin, he]
  · intro hne
    have hb : (admin_id == actingId) = false := by
      simpa using hne
    refine ⟨by simp [delete_admin, hb], fun hcount => ?_⟩
    simp only [delete_admin, hb, cond_false, Bool.false_eq_true, if_false]
    exact find?_eraseP_of_countP_le_one _ _ hcount

theorem C8_delete_admin_witness :
    (delete_admin
        [⟨"a1", "om_admin", "bcrypt$om123", "Om Lawns Banquet Hall", 0⟩,
         ⟨"a2", "shiv_admin", "bcrypt$shiv123", "Shiv Lawns Banquet Hall", 0⟩]
        "a1" "a1"
      = ([⟨"a1", "om_admin", "bcrypt$om123", "Om Lawns Banquet Hall", 0⟩,
          ⟨"a2", "shiv_admin", "bcrypt$shiv123", "Shiv Lawns Banquet Hall", 0⟩],
         .error .SelfDeleteForbidden)) ∧
    ((delete_admin
        [⟨"a1", "om_admin", "bcrypt$om123", "Om Lawns Banquet Hall", 0⟩,
         ⟨"a2", "shiv_admin", "bcrypt$shiv123", "Shiv Lawns Banquet Hall", 0⟩]
        "a1" "a2").2 = .ok "Admin deleted successfully") ∧
    (find_admin (delete_admin
        [⟨"a1", "om_admin", "bcrypt$om123", "Om Lawns Banquet Hall", 0⟩,
         ⟨"a2", "shiv_admin", "bcrypt$shiv123", "Shiv Lawns Banquet Hall", 0⟩]
        "a1" "a2").1 "a2" = none) := by
  refine ⟨(C8_delete_admin _ "a1" "a1").1 rfl, ?_⟩
  obtain ⟨h1, h2⟩ := (C8_delete_admin
    [⟨"a1", "om_admin", "bcrypt$om123", "Om Lawns Banquet Hall", 0⟩,
     ⟨"a2", "shiv_admin", "bcrypt$shiv123", "Shiv Lawns Banquet Hall", 0⟩]
    "a1" "a2").2 (by decide)
  exact ⟨h1, h2 (by decide)⟩

/-! ## Sample records (used by concrete counterexamples and witnesses) -/

/-- One of the two seeder halls of `startup_event`, with an explicit id. -/
def sampleHall : Hall :=
  ⟨"h1", "Om Lawns Banquet Hall", "-", 500, 50000,
   "https://maps.google.com", "https://images.pexels.com/1.jpeg",
   none, some "Elegant banquet hall for weddings and events", none⟩

def sampleHallB : Hall :=
  ⟨"h2", "Shiv Lawns Banquet Hall", "-", 800, 75000,
   "https://maps.google.com", "https://images.pexels.com/2.jpeg",
   none, some "Grand banquet hall with lawn facility", none⟩

def sampleBooking : Booking :=
  ⟨"b1", "h1", "2025-01-01", "customer", "city", "9900112233",
   "wedding", 100, none, 1700000000, "booked"⟩

def sampleBill : Bill :=
  ⟨"bill1", some "b1", "h1", "Om Lawns Banquet Hall", "customer", "city",
   "2025-01-01", "2025-02-01", 100, "wedding", [], [], 50000, [],
   0, 10000, 60000, 50000, 1700000000⟩

/-! ## C9: list caps -/

/-- C9 (amended).  Every list operation caps its result: 100 documents
for the admin and hall listings, 1000 for the service, package,
shubh-date, booking, public-booking and bill listings. -/
theorem C9_list_caps (admins : List Admin) (halls : List Hall)
    (services : List Service) (packages : List Package)
    (dates : List ShubhDate) (bookings bills : List Doc)
    (hall_id : Option String) :
    (get_admins admins).length ≤ 100 ∧
    (get_halls halls).length ≤ 100 ∧
    (get_services services hall_id).length ≤ 1000 ∧
    (get_packages packages hall_id).length ≤ 1000 ∧
    (get_shubh_dates dates hall_id).length ≤ 1000 ∧
    (get_bookings bookings hall_id).length ≤ 1000 ∧
    (get_public_bookings bookings hall_id).length ≤ 1000 ∧
    (get_bills bills hall_id).length ≤ 1000 := by
  refine ⟨?_, ?_, ?_, ?_, ?_, ?_, ?_, ?_⟩
  · unfold get_admins
    rw [List.length_map]
    exact List.length_take_le _ _
  · exact List.length_take_le _ _
  · exact List.length_take_le _ _
  · exact List.length_take_le _ _
  · exact List.length_take_le _ _
  · unfold get_bookings
    rw [List.length_map]
    exact List.length_take_le _ _
  · unfold get_public_bookings
    rw [List.length_map]
    exact List.length_take_le _ _
  · unfold get_bills
    rw [List.length_map]
    exact List.length_take_le _ _

/-- C9 counterexample.  The hall listing caps at 100, not at the 1000
claimed for catalogue listings: on a store of 200 halls it returns 100
documents, not all 200. -/
theorem C9_counterexample :
    (get_halls (List.replicate 200 sampleHall)).length = 100 ∧
    (get_halls (List.replicate 200 sampleHall)).length ≠ 200 := by
  have h : (get_halls (List.replicate 200 sampleHall)).length = 100 := by
    simp [get_halls]
  exact ⟨h, by rw [h]; decide⟩

/-! ## C5: entity ids under full-document update -/

/-- Replacing the first element matched by `p` leaves the image of `g`
over the list unchanged, whenever the replacement agrees with every
matched element on `g`. -/
theorem updateFirst_map_eq (p : α → Bool) (f : α → α) (g : α → β)
    (hp : ∀ x, p x = true → g (f x) = g x) (l : List α) :
    (updateFirst p f l).map g = l.map g := by
  induction l with
  | nil => rfl
  | cons x xs ih =>
    cases hx : p x with
    | true => simp [updateFirst, hx, hp x hx]
    | false => simp [updateFirst, hx, ih]

set_option maxRecDepth 16000 in
theorem lookup_id_bookingInsertDoc (b : Booking) :
    List.lookup "id" (bookingInsertDoc b) = some (.str b.id) := rfl

/-- C5 (amended).  A full-document update `$set`s every field of the
request body, the id included; the stored ids are preserved exactly
when the body's id equals the id addressed in the path (the intended
use), for halls, services and bookings alike. -/
theorem C5_update_preserves_ids (halls : List Hall) (services : List Service)
    (bookings : List Doc) (hall_id service_id booking_id : String)
    (h : Hall) (s : Service) (b : Booking)
    (hh : h.id = hall_id) (hs : s.id = service_id) (hb : b.id = booking_id) :
    (update_hall halls hall_id h).map Hall.id = halls.map Hall.id ∧
    (update_service services service_id s).map Service.id
      = services.map Service.id ∧
    (update_booking bookings booking_id b).map (List.lookup "id")
      = bookings.map (List.lookup "id") := by
  refine ⟨?_, ?_, ?_⟩
  · refine updateFirst_map_eq _ _ _ (fun x hx => ?_) halls
    have : x.id = hall_id := by simpa using hx
    rw [this, hh]
  · refine updateFirst_map_eq _ _ _ (fun x hx => ?_) services
    have : x.id = service_id := by simpa using hx
    rw [this, hs]
  · refine updateFirst_map_eq _ _ _ (fun x hx => ?_) bookings
    have hx' : List.lookup "id" x = some (.str booking_id) := by
      simpa using hx
    rw [lookup_id_bookingInsertDoc, hb, hx']

set_option maxRecDepth 16000 in
theorem C5_update_preserves_ids_witness :
    (update_hall [sampleHall] "h1" sampleHall).map Hall.id
      = [sampleHall].map Hall.id ∧
    (update_service [] "s1"
        ⟨"s1", "h1", "catering", "-", none, none, none, none⟩).map Service.id
      = ([] : List Service).map Service.id ∧
    (update_booking [bookingInsertDoc sampleBooking] "b1" sampleBooking).map
        (List.lookup "id")
      = [bookingInsertDoc sampleBooking].map (List.lookup "id") :=
  C5_update_preserves_ids [sampleHall] []
    [bookingInsertDoc sampleBooking] "h1" "s1" "b1" sampleHall
    ⟨"s1", "h1", "catering", "-", none, none, none, none⟩ sampleBooking
    rfl rfl rfl

set_option maxRecDepth 16000 in
/-- C5 counterexample.  An update addressed to stored id "h1" whose
request body carries id "h2" rewrites the stored document's id to
"h2": the id is not immutable under update. -/
theorem C5_counterexample :
    (update_hall [sampleHall] "h1" sampleHallB).map Hall.id = ["h2"] ∧
    ("h2" : String) ≠ "h1" := by
  exact ⟨rfl, by decide⟩

/-! ## C6: settings singleton -/

/-- Invariant of the settings collection: at most one row, and every
row carries the singleton id. -/
def settingsInv (store : List SettingsRec) : Prop :=
  store.length ≤ 1 ∧ ∀ d ∈ store, d.id = "settings"

theorem updateFirst_length (p : α → Bool) (f : α → α) (l : List α) :
    (updateFirst p f l).length = l.length := by
  induction l with
  | nil => rfl
  | cons x xs ih =>
    cases hx : p x with
    | true => simp [updateFirst, hx]
    | false => simp [updateFirst, hx, ih]

theorem mem_updateFirst_const (p : α → Bool) (s : α) (l : List α) (d : α)
    (hd : d ∈ updateFirst p (fun _ => s) l) : d = s ∨ d ∈ l := by
  induction l with
  | nil => simp [updateFirst] at hd
  | cons x xs ih =>
    cases hx : p x with
    | true =>
      simp only [updateFirst, hx, cond_true] at hd
      rcases List.mem_cons.1 hd with h | h
      · exact Or.inl h
      · exact Or.inr (List.mem_cons_of_mem _ h)
    | false =>
      simp only [updateFirst, hx, cond_false] at hd
      rcases List.mem_cons.1 hd with h | h
      · exact Or.inr (h ▸ List.mem_cons_self _ _)
      · rcases ih h with h' | h'
        · exact Or.inl h'
        · exact Or.inr (List.mem_cons_of_mem _ h')

/-- With at most one row, all carrying id "settings", a failed
`find_one` means the store is empty. -/
theorem settingsInv_find?_none (store : List SettingsRec)
    (hinv : settingsInv store)
    (hf : store.find? (fun d => d.id == "settings") = none) : store = [] := by
  cases store with
  | nil => rfl
  | cons d rest =>
    have hid : d.id = "settings" := hinv.2 d (List.mem_cons_self _ _)
    rw [List.find?_cons_of_pos _ (by simp [hid])] at hf
    cases hf

theorem applySettingsOp_inv (store : List SettingsRec) (op : SettingsOp)
    (hinv : settingsInv store)
    (hop : ∀ s, op = .update s → s.id = "settings")
    (st : List SettingsRec) (h : applySettingsOp store op = .ok st) :
    settingsInv st := by
  cases op with
  | get =>
    simp only [applySettingsOp, get_settings] at h
    cases hf : store.find? (fun d => d.id == "settings") with
    | some s =>
      rw [hf] at h
      cases h
      exact hinv
    | none =>
      rw [hf] at h
      cases h
      have := settingsInv_find?_none store hinv hf
      subst this
      exact ⟨by simp, by intro d hd; simp at hd; simp [hd, defaultSettings]⟩
  | update s =>
    have hid : s.id = "settings" := hop s rfl
    simp only [applySettingsOp, update_settings] at h
    cases hf : store.find? (fun d => d.id == "settings") with
    | some w =>
      rw [hf] at h
      simp only [Option.isSome_some, if_true] at h
      cases h
      constructor
      · rw [updateFirst_length]
        exact hinv.1
      · intro d hd
        rcases mem_updateFirst_const _ _ _ _ hd with h' | h'
        · rw [h']
          exact hid
        · exact hinv.2 d h'
    | none =>
      rw [hf] at h
      simp only [Option.isSome_none, Bool.false_eq_true, if_false] at h
      rw [if_pos (by simp [hid])] at h
      cases h
      have := settingsInv_find?_none store hinv hf
      subst this
      exact ⟨by simp, by intro d hd; simp at hd; simp [hd, hid]⟩

theorem runSettingsOps_inv (ops : List SettingsOp) (store : List SettingsRec)
    (hinv : settingsInv store)
    (hgood : ∀ s, SettingsOp.update s ∈ ops → s.id = "settings")
    (st : List SettingsRec) (h : runSettingsOps store ops = .ok st) :
    settingsInv st := by
  induction ops generalizing store with
  | nil =>
    simp only [runSettingsOps] at h
    cases h
    exact hinv
  | cons op ops ih =>
    simp only [runSettingsOps] at h
    cases happ : applySettingsOp store op with
    | ok mid =>
      rw [happ] at h
      refine ih mid ?_ ?_ h
      · exact applySettingsOp_inv store op hinv
          (fun s hs => hgood s (hs ▸ List.mem_cons_self _ _)) mid happ
      · exact fun s hs => hgood s (List.mem_cons_of_mem _ hs)
    | error e =>
      rw [happ] at h
      cases h

/-- C6 (amended).  A get on the empty store inserts and returns the
default settings document {signup_enabled: false, language: "en",
theme: "light"}; a second get returns the same values without
inserting again; and — provided every update request body carries the
singleton id "settings" (its pydantic default) — no sequence of get
and update operations ever leaves more than one settings row. -/
theorem C6_settings_singleton (ops : List SettingsOp) (st : List SettingsRec)
    (hgood : ∀ s, SettingsOp.update s ∈ ops → s.id = "settings")
    (hrun : runSettingsOps [] ops = .ok st) :
    get_settings [] = ([defaultSettings], defaultSettings) ∧
    defaultSettings = ⟨"settings", false, "en", "light"⟩ ∧
    get_settings [defaultSettings] = ([defaultSettings], defaultSettings) ∧
    st.length ≤ 1 := by
  refine ⟨rfl, rfl, rfl, ?_⟩
  exact (runSettingsOps_inv ops [] ⟨by simp, by simp⟩ hgood st hrun).1

theorem C6_settings_singleton_witness :
    get_settings [] = ([defaultSettings], defaultSettings) ∧
    defaultSettings = ⟨"settings", false, "en", "light"⟩ ∧
    get_settings [defaultSettings] = ([defaultSettings], defaultSettings) ∧
    ([defaultSettings] : List SettingsRec).length ≤ 1 :=
  C6_settings_singleton [.get, .update defaultSettings, .get] [defaultSettings]
    (by intro s hs; simp at hs; rw [hs]; rfl) rfl

/-- A settings update body whose id is not "settings". -/
def renamedSettings : SettingsRec := ⟨"hacked", false, "en", "light"⟩

/-- C6 counterexample.  An update whose body id is "hacked" renames
the stored singleton; the next get then inserts a second default row:
the sequence get, update{id:"hacked"}, get leaves two settings rows. -/
theorem C6_counterexample :
    runSettingsOps [] [.get, .update renamedSettings, .get]
      = .ok [renamedSettings, defaultSettings] ∧
    ([renamedSettings, defaultSettings] : List SettingsRec).length = 2 :=
  ⟨rfl, rfl⟩

/-! ## C3: public booking listing -/

/-- The claim-side match predicate: status is "booked", and the hall
matches the filter when one is given. -/
def bookingMatches (hall_id : Option String) (b : Booking) : Bool :=
  b.status == "booked" &&
    (match hall_id with
     | some h => b.hall_id == h
     | none => true)

/-- Spec-side description of the public booking listing, following the
claim's words with no cap: exactly the stored bookings matching the
status/hall filter, with `customer_phone` stripped. -/
def publicBookingsSpec (bookings : List Booking) (hall_id : Option String) :
    List Doc :=
  (bookings.filter (bookingMatches hall_id)).map
    (fun b => projectOut ["_id", "customer_phone"] (bookingInsertDoc b))

set_option maxRecDepth 16000 in
theorem lookup_status_insert (b : Booking) :
    List.lookup "status" (bookingInsertDoc b) = some (.str b.status) := rfl

set_option maxRecDepth 16000 in
theorem lookup_hall_insert (b : Booking) :
    List.lookup "hall_id" (bookingInsertDoc b) = some (.str b.hall_id) := rfl

set_option maxRecDepth 16000 in
theorem lookup_phone_public (b : Booking) :
    List.lookup "customer_phone"
      (projectOut ["_id", "customer_phone"] (bookingInsertDoc b)) = none := rfl

set_option maxRecDepth 16000 in
theorem lookup_status_public (b : Booking) :
    List.lookup "status"
      (projectOut ["_id", "customer_phone"] (bookingInsertDoc b))
      = some (.str b.status) := rfl

theorem beq_some_str (x y : String) :
    (some (Value.str x) == some (Value.str y)) = (x == y) := by
  by_cases h : x = y
  · simp [h]
  · have h1 : (some (Value.str x) == some (Value.str y)) = false := by
      rw [beq_eq_false_iff_ne]
      simp [h]
    have h2 : (x == y) = false := by
      rw [beq_eq_false_iff_ne]
      exact h
    rw [h1, h2]

/-- The hall filter as the listing effectively applies it: a given
non-empty hall_id filters, while `none` and the falsy empty string do
not. -/
def effectiveFilter : Option String → Option String
  | none => none
  | some h => cond (h == "") none (some h)

/-- Spec-side description of the amended claim: the stored bookings
with status "booked" matching the effective hall filter, capped at the
first 1000 matching documents, with `customer_phone` stripped. -/
def publicBookingsCapped (bookings : List Booking) (hall_id : Option String) :
    List Doc :=
  ((bookings.filter (bookingMatches (effectiveFilter hall_id))).take 1000).map
    (fun b => projectOut ["_id", "customer_phone"] (bookingInsertDoc b))

/-- Any document drawn from the public listing's query came from the
store and passed the status check, whichever query branch ran. -/
theorem mem_public_source (store : List Doc) (hall_id : Option String) (x : Doc)
    (hx : x ∈ (if strTruthy hall_id = true then
        store.filter (fun d =>
          List.lookup "hall_id" d == (hall_id.map Value.str) &&
          List.lookup "status" d == some (Value.str "booked"))
      else store.filter (fun d =>
          List.lookup "status" d == some (Value.str "booked")))) :
    x ∈ store ∧ (List.lookup "status" x == some (Value.str "booked")) = true := by
  cases hc : strTruthy hall_id with
  | true =>
    rw [hc, if_pos rfl] at hx
    have h := List.mem_filter.1 hx
    have h2 := h.2
    rw [Bool.and_eq_true] at h2
    exact ⟨h.1, h2.2⟩
  | false =>
    rw [hc, if_neg (by simp)] at hx
    have h := List.mem_filter.1 hx
    exact ⟨h.1, h.2⟩

/-- C3 (amended).  For every store and filter: the public listing
returns exactly the stored bookings with status "booked" matching the
hall filter when a non-empty one is given (an empty-string hall_id is
falsy and disables the filter), `customer_phone` stripped, capped at
the first 1000 matching documents; and every returned record lacks
`customer_phone` and has status "booked". -/
theorem C3_public_listing (bookings : List Booking) (hall_id : Option String) :
    (∀ d ∈ get_public_bookings (bookings.map bookingInsertDoc) hall_id,
       List.lookup "customer_phone" d = none ∧
       List.lookup "status" d = some (.str "booked")) ∧
    get_public_bookings (bookings.map bookingInsertDoc) hall_id
      = publicBookingsCapped bookings hall_id := by
  have heq : get_public_bookings (bookings.map bookingInsertDoc) hall_id
      = publicBookingsCapped bookings hall_id := by
    unfold get_public_bookings publicBookingsCapped
    cases hall_id with
    | none =>
      rw [if_neg (by simp [strTruthy])]
      rw [List.filter_map]
      rw [List.filter_congr (fun b _ => by
        show (List.lookup "status" (bookingInsertDoc b)
          == some (Value.str "booked")) = bookingMatches (effectiveFilter none) b
        rw [lookup_status_insert, beq_some_str]
        simp [bookingMatches, effectiveFilter])]
      rw [← List.map_take, List.map_map]
      rfl
    | some h =>
      cases hh : h == "" with
      | true =>
        rw [if_neg (by simp [strTruthy, hh])]
        rw [List.filter_map]
        rw [List.filter_congr (fun b _ => by
          show (List.lookup "status" (bookingInsertDoc b)
            == some (Value.str "booked"))
            = bookingMatches (effectiveFilter (some h)) b
          rw [lookup_status_insert, beq_some_str]
          simp [bookingMatches, effectiveFilter, hh])]
        rw [← List.map_take, List.map_map]
        rfl
      | false =>
        rw [if_pos (by simp [strTruthy, hh])]
        rw [List.filter_map]
        rw [List.filter_congr (fun b _ => by
          show (List.lookup "hall_id" (bookingInsertDoc b)
              == (some h).map Value.str &&
            List.lookup "status" (bookingInsertDoc b)
              == some (Value.str "booked"))
            = bookingMatches (effectiveFilter (some h)) b
          rw [lookup_status_insert, lookup_hall_insert]
          show ((some (Value.str b.hall_id) == some (Value.str h)) &&
            (some (Value.str b.status) == some (Value.str "booked")))
            = bookingMatches (effectiveFilter (some h)) b
          rw [beq_some_str, beq_some_str]
          simp [bookingMatches, effectiveFilter, hh, Bool.and_comm])]
        rw [← List.map_take, List.map_map]
        rfl
  refine ⟨?_, heq⟩
  intro d hd
  unfold get_public_bookings at hd
  obtain ⟨x, hx, rfl⟩ := List.mem_map.1 hd
  obtain ⟨hmem, hstat⟩ := mem_public_source _ _ _ (List.mem_of_mem_take hx)
  obtain ⟨b, hb, rfl⟩ := List.mem_map.1 hmem
  have hbs : b.status = "booked" := by
    rw [lookup_status_insert] at hstat
    simpa using hstat
  exact ⟨lookup_phone_public b, by rw [lookup_status_public b, hbs]⟩

set_option maxRecDepth 16000 in
theorem C3_public_listing_witness :
    (List.lookup "customer_phone"
        (projectOut ["_id", "customer_phone"] (bookingInsertDoc sampleBooking))
        = none ∧
     List.lookup "status"
        (projectOut ["_id", "customer_phone"] (bookingInsertDoc sampleBooking))
        = some (.str "booked")) ∧
    get_public_bookings ([sampleBooking].map bookingInsertDoc) none
      = publicBookingsCapped [sampleBooking] none := by
  obtain ⟨h1, h2⟩ := C3_public_listing [sampleBooking] none
  refine ⟨h1 _ ?_, h2⟩
  rw [h2]
  exact List.Mem.head _

set_option maxRecDepth 16000 in
theorem bookingInsert_booked :
    (fun d => List.lookup "status" d == some (Value.str "booked"))
      (bookingInsertDoc sampleBooking) = true := rfl

set_option maxRecDepth 16000 in
theorem sampleBooking_matches : bookingMatches none sampleBooking = true := rfl

/-- C3 counterexample.  On a store of 1001 booked bookings the public
listing returns only 1000 records: it is not exactly the set of booked
bookings, because of the `to_list(1000)` cap. -/
theorem C3_counterexample :
    get_public_bookings
        ((List.replicate 1001 sampleBooking).map bookingInsertDoc) none
      ≠ publicBookingsSpec (List.replicate 1001 sampleBooking) none := by
  intro heq
  have hlen := congrArg List.length heq
  have hf1 : List.filter
      (fun d => List.lookup "status" d == some (Value.str "booked"))
      (List.replicate 1001 (bookingInsertDoc sampleBooking))
      = List.replicate 1001 (bookingInsertDoc sampleBooking) :=
    List.filter_replicate_of_pos bookingInsert_booked
  have hf2 : List.filter (bookingMatches none)
      (List.replicate 1001 sampleBooking)
      = List.replicate 1001 sampleBooking :=
    List.filter_replicate_of_pos sampleBooking_matches
  have h1 : (get_public_bookings
      ((List.replicate 1001 sampleBooking).map bookingInsertDoc) none).length
      = 1000 := by
    unfold get_public_bookings
    rw [if_neg (by simp [strTruthy])]
    rw [List.map_replicate, hf1, List.length_map, List.length_take,
      List.length_replicate]
    omega
  have h2 : (publicBookingsSpec (List.replicate 1001 sampleBooking) none).length
      = 1001 := by
    unfold publicBookingsSpec
    rw [hf2, List.length_map, List.length_replicate]
  rw [h1, h2] at hlen
  exact absurd hlen (by decide)

/-! ## C4: timestamp serialization and round trip -/

set_option maxRecDepth 16000 in
theorem lookup_booking_date_insert (b : Booking) :
    List.lookup "booking_date" (bookingInsertDoc b)
      = some (.dtText b.booking_date) := rfl

set_option maxRecDepth 32000 in
theorem lookup_created_at_insert (bl : Bill) :
    List.lookup "created_at" (billInsertDoc bl)
      = some (.dtText bl.created_at) := rfl

set_option maxRecDepth 16000 in
/-- The read-side parse undoes the write-side serialization: parsing
`booking_date` in a stored booking document recovers the pydantic dump
with its structured datetime. -/
theorem parse_booking_roundtrip (b : Booking) :
    setField "booking_date" parseIfText (bookingInsertDoc b)
      = b.model_dump := rfl

set_option maxRecDepth 32000 in
theorem parse_bill_roundtrip (bl : Bill) :
    setField "created_at" parseIfText (billInsertDoc bl)
      = bl.model_dump := rfl

set_option maxRecDepth 16000 in
theorem lookup_booking_date_dump (b : Booking) :
    List.lookup "booking_date" b.model_dump = some (.dt b.booking_date) := rfl

set_option maxRecDepth 32000 in
theorem lookup_created_at_dump (bl : Bill) :
    List.lookup "created_at" bl.model_dump = some (.dt bl.created_at) := rfl

/-- Membership in the optionally-filtered store implies membership in
the store. -/
theorem mem_of_mem_if_filter (c : Bool) (p : Doc → Bool) (l : List Doc)
    (x : Doc) (hx : x ∈ (if c = true then l.filter p else l)) : x ∈ l := by
  cases c with
  | true => exact List.mem_filter.1 (by simpa using hx) |>.1
  | false => simpa using hx

/-- C4 (amended).  Booking and bill create/update serialize the
timestamp field to text before storage, and the authenticated listing
reads parse it back: every record they return is the original pydantic
dump with the structured timestamp restored.  (The public booking
listing, by contrast, returns the stored text unparsed — see the
counterexample.) -/
theorem C4_timestamp_roundtrip (bs : List Booking) (bills : List Bill)
    (hall_id : Option String) :
    (∀ b : Booking, List.lookup "booking_date" (bookingInsertDoc b)
       = some (.dtText b.booking_date)) ∧
    (∀ bl : Bill, List.lookup "created_at" (billInsertDoc bl)
       = some (.dtText bl.created_at)) ∧
    (∀ d ∈ get_bookings (bs.map bookingInsertDoc) hall_id,
       ∃ b ∈ bs, d = b.model_dump ∧
         List.lookup "booking_date" d = some (.dt b.booking_date)) ∧
    (∀ d ∈ get_bills (bills.map billInsertDoc) hall_id,
       ∃ bl ∈ bills, d = bl.model_dump ∧
         List.lookup "created_at" d = some (.dt bl.created_at)) := by
  refine ⟨fun b => lookup_booking_date_insert b,
    fun bl => lookup_created_at_insert bl, ?_, ?_⟩
  · intro d hd
    unfold get_bookings at hd
    obtain ⟨x, hx, rfl⟩ := List.mem_map.1 hd
    have hx' := mem_of_mem_if_filter _ _ _ _ (List.mem_of_mem_take hx)
    obtain ⟨b, hb, rfl⟩ := List.mem_map.1 hx'
    refine ⟨b, hb, parse_booking_roundtrip b, ?_⟩
    rw [parse_booking_roundtrip b]
    exact lookup_booking_date_dump b
  · intro d hd
    unfold get_bills at hd
    obtain ⟨x, hx, rfl⟩ := List.mem_map.1 hd
    have hx' := mem_of_mem_if_filter _ _ _ _ (List.mem_of_mem_take hx)
    obtain ⟨bl, hb, rfl⟩ := List.mem_map.1 hx'
    refine ⟨bl, hb, parse_bill_roundtrip bl, ?_⟩
    rw [parse_bill_roundtrip bl]
    exact lookup_created_at_dump bl

theorem C4_timestamp_roundtrip_witness :
    (List.lookup "booking_date" (bookingInsertDoc sampleBooking)
      = some (.dtText sampleBooking.booking_date)) ∧
    (List.lookup "created_at" (billInsertDoc sampleBill)
      = some (.dtText sampleBill.created_at)) ∧
    (∃ b ∈ [sampleBooking], sampleBooking.model_dump = b.model_dump ∧
       List.lookup "booking_date" sampleBooking.model_dump
         = some (.dt b.booking_date)) ∧
    (∃ bl ∈ [sampleBill], sampleBill.model_dump = bl.model_dump ∧
       List.lookup "created_at" sampleBill.model_dump
         = some (.dt bl.created_at)) := by
  obtain ⟨h1, h2, h3, h4⟩ := C4_timestamp_roundtrip [sampleBooking] [sampleBill] none
  refine ⟨h1 sampleBooking, h2 sampleBill, ?_, ?_⟩
  · have := h3 sampleBooking.model_dump
      (by rw [← parse_booking_roundtrip sampleBooking]; exact List.Mem.head _)
    exact this
  · have := h4 sampleBill.model_dump
      (by rw [← parse_bill_roundtrip sampleBill]; exact List.Mem.head _)
    exact this

/-- Does an optional stored value hold a structured datetime? -/
def isStructuredDt : Option Value → Bool
  | some (.dt _) => true
  | _ => false

set_option maxRecDepth 16000 in
/-- C4 counterexample.  The public booking listing is a read that
returns the stored record with `booking_date` still in its serialized
textual form, not parsed back to a structured timestamp. -/
theorem C4_counterexample :
    List.lookup "booking_date"
        ((get_public_bookings [bookingInsertDoc sampleBooking] none).headD [])
      = some (.dtText 1700000000) ∧
    isStructuredDt (List.lookup "booking_date"
        ((get_public_bookings [bookingInsertDoc sampleBooking] none).headD []))
      = false := ⟨rfl, rfl⟩

/-! ## C10: upload encoder extension extraction -/

/-- Spec-side description of the extension: the substring of the
filename after its last '.', or the whole filename if it has none. -/
def afterLastDot (s : String) : String :=
  ⟨(s.data.reverse.takeWhile (fun c => !(c == '.'))).reverse⟩

theorem pySplitDot_ne_nil (cs : List Char) : pySplitDot cs ≠ [] := by
  cases cs with
  | nil => simp [pySplitDot]
  | cons c cs =>
    unfold pySplitDot
    cases c == '.' with
    | true => simp
    | false =>
      cases pySplitDot cs with
      | nil => simp
      | cons h t => simp

theorem pySplitDot_no_dot (cs : List Char) (h : '.' ∉ cs) :
    pySplitDot cs = [cs] := by
  induction cs with
  | nil => rfl
  | cons c cs ih =>
    have hc : (c == '.') = false := by
      rw [beq_eq_false_iff_ne]
      intro he
      exact h (he ▸ List.mem_cons_self _ _)
    have htail : '.' ∉ cs := fun hm => h (List.mem_cons_of_mem _ hm)
    unfold pySplitDot
    rw [hc, ih htail]

theorem pySplitDot_dot_length (cs : List Char) (h : '.' ∈ cs) :
    2 ≤ (pySplitDot cs).length := by
  induction cs with
  | nil => cases h
  | cons c cs ih =>
    unfold pySplitDot
    cases hc : c == '.' with
    | true =>
      have := List.length_pos.2 (pySplitDot_ne_nil cs)
      simp only [List.length_cons]
      omega
    | false =>
      have hcs : '.' ∈ cs := by
        rcases List.mem_cons.1 h with he | hm
        · exact absurd (by rw [← he]; simp) (by simp [hc] : ¬(c == '.') = true)
        · exact hm
      have h2 := ih hcs
      cases hr : pySplitDot cs with
      | nil => exact absurd hr (pySplitDot_ne_nil cs)
      | cons hd t =>
        rw [hr] at h2
        simpa using h2

theorem getLastD_irrel (l : List α) (hne : l ≠ []) (a b : α) :
    l.getLastD a = l.getLastD b := by
  cases l with
  | nil => exact absurd rfl hne
  | cons x xs =>
    rw [List.getLastD_cons, List.getLastD_cons]

theorem takeWhile_append_false (p : α → Bool) (xs : List α) (a : α)
    (ha : p a = false) :
    (xs ++ [a]).takeWhile p = xs.takeWhile p := by
  induction xs with
  | nil => simp [List.takeWhile, ha]
  | cons x xs ih =>
    cases hx : p x with
    | true => simp [List.takeWhile_cons, hx, ih]
    | false => simp [List.takeWhile_cons, hx]

theorem takeWhile_append_stop (p : α → Bool) (xs ys : List α) (a : α)
    (ha : a ∈ xs) (hpa : p a = false) :
    (xs ++ ys).takeWhile p = xs.takeWhile p := by
  induction xs with
  | nil => cases ha
  | cons x xs ih =>
    cases hx : p x with
    | true =>
      have hmem : a ∈ xs := by
        rcases List.mem_cons.1 ha with he | hm
        · rw [he] at hpa
          rw [hpa] at hx
          cases hx
        · exact hm
      simp [List.takeWhile_cons, hx, ih hmem]
    | false => simp [List.takeWhile_cons, hx]

theorem takeWhile_all (p : α → Bool) (xs : List α)
    (h : ∀ x ∈ xs, p x = true) : xs.takeWhile p = xs := by
  induction xs with
  | nil => rfl
  | cons x xs ih =>
    simp [List.takeWhile_cons, h x (List.mem_cons_self _ _),
      ih (fun y hy => h y (List.mem_cons_of_mem _ hy))]

/-- The last chunk of the Python split at '.' is the suffix after the
last dot (the whole list when it has no dot). -/
theorem pySplitDot_getLastD (cs : List Char) :
    (pySplitDot cs).getLastD []
      = (cs.reverse.takeWhile (fun c => !(c == '.'))).reverse := by
  induction cs with
  | nil => rfl
  | cons c cs ih =>
    rw [List.reverse_cons]
    cases hc : c == '.' with
    | true =>
      rw [takeWhile_append_false (fun c => !(c == '.')) cs.reverse c
        (by simp [hc])]
      unfold pySplitDot
      rw [hc, List.getLastD_cons]
      exact ih
    | false =>
      by_cases hdot : '.' ∈ cs
      · have hrev : ('.' : Char) ∈ cs.reverse := List.mem_reverse.2 hdot
        rw [takeWhile_append_stop (fun c => !(c == '.')) cs.reverse [c] '.'
          hrev (by simp)]
        unfold pySplitDot
        rw [hc]
        cases hr : pySplitDot cs with
        | nil => exact absurd hr (pySplitDot_ne_nil cs)
        | cons hd t =>
          have hlen := pySplitDot_dot_length cs hdot
          rw [hr] at hlen
          have htne : t ≠ [] := by
            cases t with
            | nil => simp at hlen
            | cons u us => simp
          rw [List.getLastD_cons]
          rw [getLastD_irrel t htne (c :: hd) hd]
          have : (pySplitDot cs).getLastD [] = t.getLastD hd := by
            rw [hr, List.getLastD_cons]
          rw [← this]
          exact ih
      · have hall : ∀ x ∈ cs.reverse ++ [c], (fun c => !(c == '.')) x = true := by
          intro x hx
          rcases List.mem_append.1 hx with hm | hm
          · have : x ∈ cs := List.mem_reverse.1 hm
            have hxne : x ≠ '.' := fun he => hdot (he ▸ this)
            simp [hxne]
          · have : x = c := by simpa using hm
            rw [this]
            simp [hc]
        rw [takeWhile_all _ _ hall]
        have hnotin : '.' ∉ c :: cs := by
          intro hm
          rcases List.mem_cons.1 hm with he | hm'
          · rw [← he] at hc
            simp at hc
          · exact hdot hm'
        rw [pySplitDot_no_dot _ hnotin]
        simp

/-- C10.  The upload encoder returns
`"data:image/" ++ ext ++ ";base64," ++ base64(bytes)`, where `ext` is
the substring of the filename after its last '.'; a filename with no
'.' yields the entire filename as the extension segment. -/
theorem C10_upload_data_uri (contents : List Nat) (filename : String) :
    upload_image contents filename
      = "data:image/" ++ afterLastDot filename ++ ";base64," ++
          base64Encode contents ∧
    ('.' ∉ filename.data → afterLastDot filename = filename) := by
  constructor
  · unfold upload_image file_extension afterLastDot
    rw [pySplitDot_getLastD filename.data]
  · intro h
    unfold afterLastDot
    have hall : ∀ x ∈ filename.data.reverse, (fun c => !(c == '.')) x = true := by
      intro x hx
      have hxne : x ≠ '.' := fun he => h (he ▸ List.mem_reverse.1 hx)
      simp [hxne]
    rw [takeWhile_all _ _ hall, List.reverse_reverse]

theorem C10_upload_data_uri_witness :
    (upload_image [1, 2] "photo.png"
      = "data:image/" ++ afterLastDot "photo.png" ++ ";base64," ++
          base64Encode [1, 2]) ∧
    afterLastDot "photopng" = "photopng" :=
  ⟨(C10_upload_data_uri [1, 2] "photo.png").1,
   (C10_upload_data_uri [1, 2] "photopng").2 (by decide)⟩

end Banquet
